import Mathlib

/-!
Verification of the UHF RFID reader protocol engine.

This file gives a shallow embedding, in Lean, of the protocol engine of the
`uhf-rfid` Rust crate: frame construction (`create_command`), the response
decoders (`parse_tag`, `parse_firmware_version`, `nxp_eas_alarm`,
`get_select_param`), the EPC Gen2 field codecs (`QueryParams`,
`SelectParams`), the transaction template (`exec`, `set_tx_power`) and the
streaming-poll loops (`multiple_poll` / `poll_for_duration` and their
callback variants), together with theorems about them.

Conventions of the embedding:
* Bytes are `Nat`s; machine-integer casts and wraparound are written with
  explicit `% 256` / `% 65536`, mirroring Rust `as u8` / `as u16` casts and
  release-mode wrapping arithmetic.
* Fallible Rust code returns `Except UhfError`; the message strings carried
  by the Rust error constructors are elided (no claim depends on them).
* Rust indexing/slicing operations that can panic are modelled in `PResult`,
  whose `panic` constructor records an out-of-bounds slice or index.
* `TagInfo.epc` keeps the raw EPC bytes; the Rust code stores
  `bytes_to_hex(epc_bytes)`, and `bytes_to_hex` is injective on byte lists,
  so equality of `TagInfo` values is preserved by this representation.
-/

/-- Protocol constant `HEADER` (0xBB). -/
def HEADER : Nat := 0xBB

/-- Protocol constant `END` (0x7E). -/
def END_BYTE : Nat := 0x7E

/-- Protocol constant `CMD_TYPE` (0x00). -/
def CMD_TYPE : Nat := 0x00

/-- Protocol constant `RESP_TYPE_NOTIFICATION` (0x01). -/
def RESP_TYPE_NOTIFICATION : Nat := 0x01

/-- Protocol constant `RESP_TYPE_TAG` (0x02). -/
def RESP_TYPE_TAG : Nat := 0x02

/-- Command code `GET_SELECT_PARAM` (0x0B). -/
def GET_SELECT_PARAM : Nat := 0x0B

/-- Command code `SET_TX_POWER` (0xB6). -/
def SET_TX_POWER : Nat := 0xB6

/-- Errors of the engine (`UhfError` in `types.rs`); message payloads elided. -/
inductive UhfError where
  | transport
  | invalidParameter
  | invalidResponse
deriving DecidableEq, Repr

/-- `TagInfo` from `types.rs`; `epc` holds the raw EPC bytes (the Rust code
stores their hex rendering, an injective image). -/
structure TagInfo where
  epc : List Nat
  rssi : Nat
deriving DecidableEq, Repr

/-- Result of a Rust computation that may panic. -/
inductive PResult (α : Type) where
  | panic
  | ok (val : α)
deriving DecidableEq, Repr

/-- Whether a `PResult` is the panic outcome. -/
def PResult.isPanic {α : Type} : PResult α → Bool
  | .panic => true
  | .ok _ => false

/-- Rust slice `&l[a..b]`: panics unless `a ≤ b ∧ b ≤ l.length`. -/
def rust_slice (l : List Nat) (a b : Nat) : PResult (List Nat) :=
  if a ≤ b ∧ b ≤ l.length then .ok ((l.drop a).take (b - a)) else .panic

/-- `UhfRfid::create_command` from `reader.rs`: builds
`[HEADER, CMD_TYPE, command, msb, lsb] ++ params ++ [checksum, END]`, where
the length is the parameter count cast `as u16` and the checksum is the
8-bit wraparound (`wrapping_add`) fold over type, command, the two length
bytes and the parameters. -/
def create_command (command : Nat) (params : List Nat) : List Nat :=
  let param_len := params.length % 65536
  let msb := (param_len >>> 8) % 256
  let lsb := param_len % 256
  let checksum :=
    ([CMD_TYPE, command, msb, lsb] ++ params).foldl (fun acc b => (acc + b) % 256) 0
  [HEADER, CMD_TYPE, command, msb, lsb] ++ params ++ [checksum, END_BYTE]

lemma wrap_fold_eq_sum_mod (l : List Nat) :
    ∀ a : Nat, a < 256 → l.foldl (fun acc b => (acc + b) % 256) a = (a + l.sum) % 256 := by
  induction l with
  | nil => intro a ha; simp [Nat.mod_eq_of_lt ha]
  | cons x xs ih =>
    intro a ha
    have hlt : (a + x) % 256 < 256 := Nat.mod_lt _ (by omega)
    calc (x :: xs).foldl (fun acc b => (acc + b) % 256) a
        = xs.foldl (fun acc b => (acc + b) % 256) ((a + x) % 256) := rfl
      _ = ((a + x) % 256 + xs.sum) % 256 := ih _ hlt
      _ = (a + (x :: xs).sum) % 256 := by
          rw [Nat.mod_add_mod, List.sum_cons]; ring_nf

lemma create_command_eq (cmd : Nat) (params : List Nat) (h : params.length ≤ 65535) :
    create_command cmd params =
      ([HEADER, CMD_TYPE, cmd, params.length / 256, params.length % 256] ++ params) ++
      [(CMD_TYPE + cmd + params.length / 256 + params.length % 256 + params.sum) % 256,
       END_BYTE] := by
  have h1 : params.length % 65536 = params.length := Nat.mod_eq_of_lt (by omega)
  have hdivlt : params.length / 256 < 256 := by omega
  have hm : params.length >>> 8 % 256 = params.length / 256 := by
    rw [Nat.shiftRight_eq_div_pow]
    have h2 : (2 : Nat) ^ 8 = 256 := by norm_num
    rw [h2]
    omega
  have hl2 : params.length % 256 % 256 = params.length % 256 := by omega
  have hck : ([CMD_TYPE, cmd, params.length / 256, params.length % 256] ++ params).foldl
        (fun acc b => (acc + b) % 256) 0 =
      (CMD_TYPE + cmd + params.length / 256 + params.length % 256 + params.sum) % 256 := by
    rw [wrap_fold_eq_sum_mod _ 0 (by omega)]
    have hsum : ([CMD_TYPE, cmd, params.length / 256, params.length % 256] ++ params).sum =
        CMD_TYPE + cmd + params.length / 256 + params.length % 256 + params.sum := by
      simp [List.sum_append]; ring
    rw [hsum, Nat.zero_add]
  simp only [create_command, h1, hm, hl2, hck]

/-- C1: `create_command(cmd, params)`, for parameter lists of at most 65535
bytes, yields a byte list of length `params.length + 7` whose first byte is
`HEADER`, whose last byte is `END`, and whose second-to-last byte equals the
8-bit wraparound sum of the type byte `CMD_TYPE = 0x00`, the command byte,
the two big-endian length bytes and all parameter bytes. -/
theorem create_command_frame_shape (cmd : Nat) (params : List Nat)
    (h : params.length ≤ 65535) :
    (create_command cmd params).length = params.length + 7 ∧
    (create_command cmd params).head? = some HEADER ∧
    (create_command cmd params).getLast? = some END_BYTE ∧
    (create_command cmd params).getD (params.length + 5) 0 =
      (CMD_TYPE + cmd + params.length / 256 + params.length % 256 + params.sum) % 256 := by
  rw [create_command_eq cmd params h]
  refine ⟨?_, ?_, ?_, ?_⟩
  · simp
  · simp
  · rw [show ([HEADER, CMD_TYPE, cmd, params.length / 256, params.length % 256] ++ params) ++
        [(CMD_TYPE + cmd + params.length / 256 + params.length % 256 + params.sum) % 256,
         END_BYTE] =
        (([HEADER, CMD_TYPE, cmd, params.length / 256, params.length % 256] ++ params) ++
         [(CMD_TYPE + cmd + params.length / 256 + params.length % 256 + params.sum) % 256]) ++
        [END_BYTE] by simp]
    exact List.getLast?_concat _
  · have hlen5 : ([HEADER, CMD_TYPE, cmd, params.length / 256, params.length % 256] ++
        params).length = params.length + 5 := by simp
    have hle : ([HEADER, CMD_TYPE, cmd, params.length / 256, params.length % 256] ++
        params).length ≤ params.length + 5 := by rw [hlen5]
    rw [List.getD_eq_getElem?_getD, List.getElem?_append_right hle, hlen5]
    simp

/-- Witness for C1 at `cmd = 0x22`, `params = [0x01, 0x02]`. -/
theorem create_command_frame_shape_witness :
    ([0x01, 0x02] : List Nat).length ≤ 65535 ∧
    ((create_command 0x22 [0x01, 0x02]).length = 2 + 7 ∧
     (create_command 0x22 [0x01, 0x02]).head? = some HEADER ∧
     (create_command 0x22 [0x01, 0x02]).getLast? = some END_BYTE ∧
     (create_command 0x22 [0x01, 0x02]).getD 7 0 =
       (CMD_TYPE + 0x22 + 2 / 256 + 2 % 256 + ([0x01, 0x02] : List Nat).sum) % 256) := by
  refine ⟨by decide, ?_⟩
  have h := create_command_frame_shape 0x22 [0x01, 0x02] (by decide)
  simpa using h

deriving instance DecidableEq for Except

/-- `UhfRfid::parse_tag` from `reader.rs`, the response decoder used by
`single_poll` and by the streaming-poll loops: responses shorter than 12
bytes give `Ok(None)`; a `HEADER`-led `TAG` response yields the EPC bytes
`response[8 .. 8 + (response[4] - 5)]` (`data_length = response[4]`,
`epc_start = 8`, `epc_end = epc_start + data_length.saturating_sub(5)`;
Rust `saturating_sub` is Nat subtraction) together with
`rssi = response[5]`, unless that span exceeds the response, which is
`InvalidResponse`; a `HEADER`-led non-`TAG` response yields `Ok(None)`; any
other first byte is `InvalidResponse`.  Indexing at 0/1/4/5 is guarded by
the length check (in bounds, so plain `getD`); the slice is modelled with
`rust_slice`, which can panic. -/
def parse_tag (response : List Nat) : PResult (Except UhfError (Option TagInfo)) :=
  if response.length < 12 then .ok (.ok none)
  else if response.getD 0 0 = HEADER ∧ response.getD 1 0 = RESP_TYPE_TAG then
    if response.length < 8 + (response.getD 4 0 - 5) then .ok (.error .invalidResponse)
    else
      match rust_slice response 8 (8 + (response.getD 4 0 - 5)) with
      | .panic => .panic
      | .ok epc_bytes => .ok (.ok (some ⟨epc_bytes, response.getD 5 0⟩))
  else if response.getD 0 0 = HEADER then .ok (.ok none)
  else .ok (.error .invalidResponse)

/-- `UhfRfid::parse_firmware_version` from `reader.rs`: for a response of
more than 6 bytes starting `HEADER, RESP_TYPE_NOTIFICATION`, the version is
the byte region `response[6 .. response.len() - 2]` (the Rust code then
applies `String::from_utf8_lossy`, a total function, elided here); anything
else is `InvalidResponse`. -/
def parse_firmware_version (response : List Nat) : PResult (Except UhfError (List Nat)) :=
  if 6 < response.length ∧ response.getD 0 0 = HEADER ∧
      response.getD 1 0 = RESP_TYPE_NOTIFICATION then
    match rust_slice response 6 (response.length - 2) with
    | .panic => .panic
    | .ok version_bytes => .ok (.ok version_bytes)
  else .ok (.error .invalidResponse)

lemma parse_tag_never_panics (r : List Nat) : (parse_tag r).isPanic = false := by
  unfold parse_tag
  split
  · rfl
  · split
    · split
      · rfl
      · have hcond : 8 ≤ 8 + (r.getD 4 0 - 5) ∧ 8 + (r.getD 4 0 - 5) ≤ r.length := by omega
        rw [rust_slice, if_pos hcond]
        rfl
    · split
      · rfl
      · rfl

/-- C3 (code bug): the response decoders are supposed to be total and never
panic, and `parse_tag` indeed never panics; but `parse_firmware_version`
panics on the 7-byte frame `[0xBB, 0x01, 0x03, 0x00, 0x00, 0x00, 0x7E]`
(a minimal well-delimited notification frame), because it takes the slice
`response[6 .. response.len() - 2] = response[6..5]`, whose start exceeds
its end. -/
theorem parse_firmware_version_panics_on_len7 :
    parse_firmware_version [0xBB, 0x01, 0x03, 0x00, 0x00, 0x00, 0x7E] = .panic ∧
    ∀ r : List Nat, (parse_tag r).isPanic = false := by
  exact ⟨by decide, parse_tag_never_panics⟩

/-- C4 counterexample: the 1-byte response `[0x00]` has a malformed header
byte, yet `single_poll`'s decoder `parse_tag` returns `Ok(None)` for it (the
short-response check precedes the header check), contradicting the claim
that an error is returned exactly when the header byte is not `0xBB`. -/
theorem parse_tag_short_bad_header_is_none :
    parse_tag [0x00] = .ok (.ok none) ∧ ([0x00] : List Nat).getD 0 0 = 0x00 ∧ HEADER = 0xBB := by
  decide

/-- C4 (amended): `parse_tag` — the response decoder of `single_poll` —
returns `Ok(None)` for every response shorter than 12 bytes regardless of
content, and for every response of at least 12 bytes whose header byte is
`0xBB` but whose type byte is not `TAG`; it returns an error exactly when
the response has at least 12 bytes and either its first byte is not `0xBB`,
or it is a `0xBB`-led `TAG` frame whose length byte at offset 4 implies an
EPC span extending past the end of the response. -/
theorem parse_tag_ok_none_and_error_condition (r : List Nat) :
    ((r.length < 12 ∨ (12 ≤ r.length ∧ r.getD 0 0 = HEADER ∧ r.getD 1 0 ≠ RESP_TYPE_TAG)) →
      parse_tag r = .ok (.ok none)) ∧
    (parse_tag r = .ok (.error .invalidResponse) ↔
      (12 ≤ r.length ∧ (r.getD 0 0 ≠ HEADER ∨
        (r.getD 1 0 = RESP_TYPE_TAG ∧ r.length < 8 + (r.getD 4 0 - 5))))) := by
  constructor
  · intro hcase
    unfold parse_tag
    rcases hcase with hshort | ⟨hlen, hhdr, htype⟩
    · rw [if_pos hshort]
    · rw [if_neg (by omega)]
      rw [if_neg (by tauto), if_pos hhdr]
  · unfold parse_tag
    split
    · next hshort =>
      simp only [show (PResult.ok (α := Except UhfError (Option TagInfo)) (.ok none) =
          .ok (.error .invalidResponse)) = False by simp, false_iff]
      omega
    · next hshort =>
      split
      · next hht =>
        split
        · next hspan =>
          simp only [true_iff, eq_self_iff_true]
          exact ⟨by omega, Or.inr ⟨hht.2, hspan⟩⟩
        · next hspan =>
          have hcond : 8 ≤ 8 + (r.getD 4 0 - 5) ∧ 8 + (r.getD 4 0 - 5) ≤ r.length := by omega
          rw [rust_slice, if_pos hcond]
          simp only [show (PResult.ok (α := Except UhfError (Option TagInfo))
              (.ok (some ⟨((r.drop 8).take (8 + (r.getD 4 0 - 5) - 8)), r.getD 5 0⟩)) =
              .ok (.error .invalidResponse)) = False by simp, false_iff]
          rintro ⟨_, hbad | ⟨_, hbad⟩⟩
          · exact hbad hht.1
          · omega
      · next hht =>
        split
        · next hhdr =>
          simp only [show (PResult.ok (α := Except UhfError (Option TagInfo)) (.ok none) =
              .ok (.error .invalidResponse)) = False by simp, false_iff]
          rintro ⟨_, hbad | ⟨htag, _⟩⟩
          · exact hbad hhdr
          · exact hht ⟨hhdr, htag⟩
        · next hhdr =>
          simp only [true_iff, eq_self_iff_true]
          exact ⟨by omega, Or.inl hhdr⟩

/-- Witness for C4 (amended) at the 1-byte response `[0xBB]`. -/
theorem parse_tag_ok_none_and_error_condition_witness :
    (([0xBB] : List Nat).length < 12 ∨
      (12 ≤ ([0xBB] : List Nat).length ∧ ([0xBB] : List Nat).getD 0 0 = HEADER ∧
       ([0xBB] : List Nat).getD 1 0 ≠ RESP_TYPE_TAG)) ∧
    parse_tag [0xBB] = .ok (.ok none) :=
  ⟨Or.inl (by decide),
   (parse_tag_ok_none_and_error_condition [0xBB]).1 (Or.inl (by decide))⟩

/-- C5 counterexample: a 21-byte `TAG` response whose declared big-endian
LEN field is `0x0110 = 272` (so the claimed EPC span `8 + (272 - 5) = 275`
extends far past the physical 21 bytes, and the claim demands
`InvalidResponse`), yet `parse_tag` accepts it with an 11-byte EPC: the
code derives the span from the low length byte `response[4] = 0x10` alone,
ignoring `response[3]`. -/
theorem parse_tag_ignores_len_hi :
    parse_tag [0xBB, 0x02, 0x22, 0x01, 0x10, 0xC8, 0x30, 0x00,
               0xE2, 0x00, 0x68, 0x16, 0x00, 0x00, 0x00, 0x60, 0x12, 0x34, 0x56,
               0x00, 0x7E] =
      .ok (.ok (some ⟨[0xE2, 0x00, 0x68, 0x16, 0x00, 0x00, 0x00, 0x60, 0x12, 0x34, 0x56],
                      0xC8⟩)) ∧
    ([0xBB, 0x02, 0x22, 0x01, 0x10, 0xC8, 0x30, 0x00,
      0xE2, 0x00, 0x68, 0x16, 0x00, 0x00, 0x00, 0x60, 0x12, 0x34, 0x56,
      0x00, 0x7E] : List Nat).length < 8 + ((0x01 * 256 + 0x10) - 5) := by
  constructor
  · decide
  · decide

/-- C5 (amended): for every `TAG`-type response accepted by `parse_tag`
(at least 12 bytes, header `0xBB`, type `TAG`), the EPC byte span is derived
from the response's *low* length byte `response[4]` alone as
`epc_len = response[4] - 5` (saturating), the high length byte `response[3]`
being ignored; whenever that span extends past the end of the physical
response the result is an `InvalidResponse` error, never a silently
truncated EPC, and otherwise the EPC is exactly the `epc_len` bytes from
offset 8. -/
theorem parse_tag_epc_span_from_len_lo (r : List Nat)
    (hlen : 12 ≤ r.length) (hhdr : r.getD 0 0 = HEADER)
    (htag : r.getD 1 0 = RESP_TYPE_TAG) :
    (r.length < 8 + (r.getD 4 0 - 5) → parse_tag r = .ok (.error .invalidResponse)) ∧
    (8 + (r.getD 4 0 - 5) ≤ r.length →
      parse_tag r = .ok (.ok (some ⟨(r.drop 8).take (r.getD 4 0 - 5), r.getD 5 0⟩))) := by
  unfold parse_tag
  rw [if_neg (by omega), if_pos ⟨hhdr, htag⟩]
  constructor
  · intro hspan
    rw [if_pos hspan]
  · intro hspan
    rw [if_neg (by omega), rust_slice, if_pos ⟨by omega, by omega⟩]
    have h85 : 8 + (r.getD 4 0 - 5) - 8 = r.getD 4 0 - 5 := by omega
    rw [h85]

/-- Witness for C5 (amended) at a minimal 12-byte tag frame with
`LEN_LO = 5` (empty EPC) and RSSI `0xC8`. -/
theorem parse_tag_epc_span_from_len_lo_witness :
    (12 ≤ ([0xBB, 0x02, 0x22, 0x00, 0x05, 0xC8, 0x30, 0x00, 0x01, 0x02, 0x03, 0x04] :
        List Nat).length) ∧
    parse_tag [0xBB, 0x02, 0x22, 0x00, 0x05, 0xC8, 0x30, 0x00, 0x01, 0x02, 0x03, 0x04] =
      .ok (.ok (some ⟨[], 0xC8⟩)) :=
  ⟨by decide,
   ((parse_tag_epc_span_from_len_lo
      [0xBB, 0x02, 0x22, 0x00, 0x05, 0xC8, 0x30, 0x00, 0x01, 0x02, 0x03, 0x04]
      (by decide) (by decide) (by decide)).2 (by decide)).trans (by decide)⟩

/-- `QuerySel` from `types.rs` (`All = 0x00`, `NotSl = 0x02`, `Sl = 0x03`). -/
inductive QuerySel where
  | all
  | notSl
  | sl
deriving DecidableEq, Repr

/-- The `repr(u8)` discriminant of a `QuerySel` (`self.sel as u8`). -/
def QuerySel.code : QuerySel → Nat
  | .all => 0x00
  | .notSl => 0x02
  | .sl => 0x03

/-- `QuerySession` from `types.rs` (`S0..S3 = 0x00..0x03`). -/
inductive QuerySession where
  | s0
  | s1
  | s2
  | s3
deriving DecidableEq, Repr

/-- The `repr(u8)` discriminant of a `QuerySession`. -/
def QuerySession.code : QuerySession → Nat
  | .s0 => 0x00
  | .s1 => 0x01
  | .s2 => 0x02
  | .s3 => 0x03

/-- `QueryTarget` from `types.rs` (`A = 0x00`, `B = 0x01`). -/
inductive QueryTarget where
  | a
  | b
deriving DecidableEq, Repr

/-- The `repr(u8)` discriminant of a `QueryTarget`. -/
def QueryTarget.code : QueryTarget → Nat
  | .a => 0x00
  | .b => 0x01

/-- `QueryParams` from `types.rs`. -/
structure QueryParams where
  sel : QuerySel
  session : QuerySession
  target : QueryTarget
  q : Nat
deriving DecidableEq, Repr

/-- `QueryParams::to_bytes`: byte0 packs the fixed flag `0x10`, `sel` and
`session`; byte1 packs `target` in the top bit and `q & 0x0F` in bits 3-6. -/
def QueryParams.to_bytes (p : QueryParams) : List Nat :=
  [0x10 ||| (p.sel.code <<< 2) ||| p.session.code,
   (p.target.code <<< 7) ||| ((p.q &&& 0x0F) <<< 3)]

/-- `QueryParams::from_bytes` from `types.rs` (the two array entries are the
first two list entries; the Rust argument is `[u8; 2]`). -/
def QueryParams.from_bytes (bytes : List Nat) : QueryParams :=
  { sel :=
      match (bytes.getD 0 0 >>> 2) &&& 0x03 with
      | 0 => .all
      | 1 => .all
      | 2 => .notSl
      | 3 => .sl
      | _ => .all
    session :=
      match bytes.getD 0 0 &&& 0x03 with
      | 0 => .s0
      | 1 => .s1
      | 2 => .s2
      | 3 => .s3
      | _ => .s0
    target := if (bytes.getD 1 0 >>> 7) &&& 0x01 = 0 then .a else .b
    q := (bytes.getD 1 0 >>> 3) &&& 0x0F }

lemma query_byte1_bits :
    ∀ t < 2, ∀ q < 16,
      ((((t <<< 7) ||| ((q &&& 0x0F) <<< 3)) >>> 7) &&& 0x01 = t) ∧
      ((((t <<< 7) ||| ((q &&& 0x0F) <<< 3)) >>> 3) &&& 0x0F = q) := by
  decide

/-- C6: every `QueryParams` whose `q` is at most 15 round-trips through the
2-byte encoding: `from_bytes (to_bytes p) = p`, preserving `sel`,
`session`, `target` and `q`. -/
theorem query_params_roundtrip (p : QueryParams) (hq : p.q ≤ 15) :
    QueryParams.from_bytes (QueryParams.to_bytes p) = p := by
  obtain ⟨sel, session, target, q⟩ := p
  have hq16 : q < 16 := Nat.lt_succ_of_le hq
  have ht2 : target.code < 2 := by cases target <;> decide
  have hbits := query_byte1_bits target.code ht2 q hq16
  unfold QueryParams.to_bytes QueryParams.from_bytes
  simp only [List.getD_cons_zero, List.getD_cons_succ]
  congr 1
  · cases sel <;> cases session <;> rfl
  · cases sel <;> cases session <;> rfl
  · simp only [hbits.1]
    cases target <;> simp [QueryTarget.code]
  · exact hbits.2

/-- Witness for C6 at the crate's default query parameters
(`All`, `S0`, `A`, `q = 4`). -/
theorem query_params_roundtrip_witness :
    (QueryParams.mk .all .s0 .a 4).q ≤ 15 ∧
    QueryParams.from_bytes (QueryParams.to_bytes (QueryParams.mk .all .s0 .a 4)) =
      QueryParams.mk .all .s0 .a 4 :=
  ⟨by decide, query_params_roundtrip (QueryParams.mk .all .s0 .a 4) (by decide)⟩

/-- `SelectTarget` from `types.rs` (`S0..S3 = 0x00..0x03`, `Sl = 0x04`). -/
inductive SelectTarget where
  | s0
  | s1
  | s2
  | s3
  | sl
deriving DecidableEq, Repr

/-- The `repr(u8)` discriminant of a `SelectTarget`. -/
def SelectTarget.code : SelectTarget → Nat
  | .s0 => 0x00
  | .s1 => 0x01
  | .s2 => 0x02
  | .s3 => 0x03
  | .sl => 0x04

/-- `SelectAction` from `types.rs` (`Action0..Action7 = 0x00..0x07`). -/
inductive SelectAction where
  | action0
  | action1
  | action2
  | action3
  | action4
  | action5
  | action6
  | action7
deriving DecidableEq, Repr

/-- The `repr(u8)` discriminant of a `SelectAction`. -/
def SelectAction.code : SelectAction → Nat
  | .action0 => 0x00
  | .action1 => 0x01
  | .action2 => 0x02
  | .action3 => 0x03
  | .action4 => 0x04
  | .action5 => 0x05
  | .action6 => 0x06
  | .action7 => 0x07

/-- `MemoryBank` from `types.rs` (`Reserved = 0x00`, `Epc = 0x01`,
`Tid = 0x02`, `User = 0x03`). -/
inductive MemoryBank where
  | reserved
  | epc
  | tid
  | user
deriving DecidableEq, Repr

/-- The `repr(u8)` discriminant of a `MemoryBank`. -/
def MemoryBank.code : MemoryBank → Nat
  | .reserved => 0x00
  | .epc => 0x01
  | .tid => 0x02
  | .user => 0x03

/-- `SelectParams` from `types.rs`; `pointer` is the 32-bit bit offset. -/
structure SelectParams where
  target : SelectTarget
  action : SelectAction
  mem_bank : MemoryBank
  pointer : Nat
  mask : List Nat
  truncate : Bool
deriving DecidableEq, Repr

/-- `u32::to_be_bytes` for `n < 2^32`. -/
def u32_to_be_bytes (n : Nat) : List Nat :=
  [n / 2 ^ 24 % 256, n / 2 ^ 16 % 256, n / 2 ^ 8 % 256, n % 256]

/-- `u32::from_be_bytes` on four byte values. -/
def u32_from_be_bytes (b0 b1 b2 b3 : Nat) : Nat :=
  b0 * 2 ^ 24 + b1 * 2 ^ 16 + b2 * 2 ^ 8 + b3

/-- The Select parameter block built by `UhfRfid::set_select_param`
(`reader.rs`): selector byte `target << 5 | action << 2 | mem_bank`,
4-byte big-endian pointer, mask length in bits computed as
`(mask.len() * 8) as u8` (note the `as u8` cast, which wraps at 256),
truncate flag byte (`0x80`/`0x00`), then the raw mask bytes. -/
def set_select_param_encode (p : SelectParams) : List Nat :=
  [(p.target.code <<< 5) ||| (p.action.code <<< 2) ||| p.mem_bank.code] ++
  u32_to_be_bytes p.pointer ++
  [(p.mask.length * 8) % 256, if p.truncate then 0x80 else 0x00] ++
  p.mask

/-- The mask byte count recomputed by `UhfRfid::get_select_param`:
`((mask_len_bits + 7) / 8) as usize`, where `mask_len_bits + 7` is u8
arithmetic and therefore wraps modulo 256 (panicking instead under debug
overflow checks). -/
def select_mask_len_bytes (mask_len_bits : Nat) : Nat :=
  ((mask_len_bits + 7) % 256) / 8

/-- The decoder used by target `select_target_of_code` in
`UhfRfid::get_select_param`: bit patterns 0-4 map to the five targets and
anything else falls back to `S0`. -/
def select_target_of_code (x : Nat) : SelectTarget :=
  match x with
  | 0 => .s0
  | 1 => .s1
  | 2 => .s2
  | 3 => .s3
  | 4 => .sl
  | _ => .s0

/-- Action sub-field decoder of `UhfRfid::get_select_param`. -/
def select_action_of_code (x : Nat) : SelectAction :=
  match x with
  | 0 => .action0
  | 1 => .action1
  | 2 => .action2
  | 3 => .action3
  | 4 => .action4
  | 5 => .action5
  | 6 => .action6
  | 7 => .action7
  | _ => .action0

/-- Memory-bank sub-field decoder of `UhfRfid::get_select_param` (the
`_ => Epc` arm of the Rust match is unreachable, as `x & 0x03 ≤ 3`). -/
def memory_bank_of_code (x : Nat) : MemoryBank :=
  match x with
  | 0 => .reserved
  | 1 => .epc
  | 2 => .tid
  | 3 => .user
  | _ => .epc

/-- Response decoding of `UhfRfid::get_select_param` (`reader.rs`): shape
checks (≥ 14 bytes, header, notification type, command echo 0x0B), then the
selector byte at offset 5 split by bit shifts, the big-endian pointer at
offsets 6-9, the mask-length-in-bits byte at offset 10, the truncate byte
at offset 11, and the mask at offsets 12 .. 12 + ceil-bytes, requiring the
response to also hold checksum and terminator after it. -/
def get_select_param_parse (r : List Nat) : Except UhfError SelectParams :=
  if r.length < 14 ∨ r.getD 0 0 ≠ HEADER ∨ r.getD 1 0 ≠ RESP_TYPE_NOTIFICATION ∨
      r.getD 2 0 ≠ GET_SELECT_PARAM then
    .error .invalidResponse
  else if r.length < 12 + select_mask_len_bytes (r.getD 10 0) + 2 then
    .error .invalidResponse
  else
    .ok { target := select_target_of_code ((r.getD 5 0 >>> 5) &&& 0x07)
          action := select_action_of_code ((r.getD 5 0 >>> 2) &&& 0x07)
          mem_bank := memory_bank_of_code (r.getD 5 0 &&& 0x03)
          pointer := u32_from_be_bytes (r.getD 6 0) (r.getD 7 0) (r.getD 8 0) (r.getD 9 0)
          mask := (r.drop 12).take (select_mask_len_bytes (r.getD 10 0))
          truncate := r.getD 11 0 == 0x80 }

/-- A well-formed `GET_SELECT_PARAM` response frame carrying `block` as its
parameter payload (the checksum byte is irrelevant to the decoder, which
never verifies it, and is set to 0 here). -/
def select_param_response (block : List Nat) : List Nat :=
  [HEADER, RESP_TYPE_NOTIFICATION, GET_SELECT_PARAM,
   block.length / 256, block.length % 256] ++ block ++ [0x00, END_BYTE]

lemma sel_byte_bits :
    ∀ t < 8, ∀ a < 8, ∀ mb < 4,
      ((((t <<< 5) ||| (a <<< 2) ||| mb) >>> 5) &&& 0x07 = t) ∧
      ((((t <<< 5) ||| (a <<< 2) ||| mb) >>> 2) &&& 0x07 = a) ∧
      (((t <<< 5) ||| (a <<< 2) ||| mb) &&& 0x03 = mb) := by
  decide

/-- C8 counterexample: for a mask-length-in-bits byte of 249 the decoder's
recomputed byte count is 0, because the u8 addition `249 + 7` wraps to 0 —
whereas `ceil(249/8) = (249 + 7) / 8 = 32`.  So the recomputation does not
equal `ceil(bits/8)` for every byte value 0-255. -/
theorem select_mask_len_bytes_wraps_at_249 :
    select_mask_len_bytes 249 = 0 ∧ (249 + 7) / 8 = 32 := by
  decide

/-- C8 (amended): for every mask-length-in-bits byte value up to 248, the
mask byte count recomputed by `get_select_param` equals `ceil(bits/8)`; for
the byte values 249-255 the u8 addition `bits + 7` wraps modulo 256 (or
panics under debug overflow checks) and the recomputed count is
`((bits + 7) mod 256) / 8` instead. -/
theorem select_mask_len_bytes_is_ceil (bits : Nat) (h : bits ≤ 248) :
    select_mask_len_bytes bits = (bits + 7) / 8 := by
  unfold select_mask_len_bytes
  omega

/-- Witness for C8 (amended) at the largest non-wrapping byte value 248. -/
theorem select_mask_len_bytes_is_ceil_witness :
    (248 : Nat) ≤ 248 ∧ select_mask_len_bytes 248 = (248 + 7) / 8 :=
  ⟨by decide, select_mask_len_bytes_is_ceil 248 (by decide)⟩

/-- C2 counterexample: a `SelectParams` with a 32-byte mask (which
`set_select_param` accepts — its guard rejects only masks longer than 32)
does not round-trip: the mask-length byte is `(32 * 8) as u8 = 0`, so the
decoder recomputes a zero-byte mask and returns empty mask data instead of
the original 32 bytes. -/
theorem select_params_mask32_not_roundtrip :
    get_select_param_parse (select_param_response (set_select_param_encode
        ⟨.s0, .action0, .epc, 0, List.replicate 32 0xAB, false⟩)) =
      .ok ⟨.s0, .action0, .epc, 0, [], false⟩ ∧
    (List.replicate 32 0xAB).length = 32 := by
  decide

/-- C2 (amended): every `SelectParams` whose mask is at most 31 bytes (and
whose pointer fits in 32 bits) round-trips: encoding with
`set_select_param`'s parameter-block construction and decoding that block
with `get_select_param`'s response decoding yields the original value.  At
exactly 32 mask bytes the `(mask.len() * 8) as u8` cast wraps to 0 and the
round-trip fails (see the counterexample), so the bound is 31, not the 32
accepted by `set_select_param`'s guard. -/
theorem select_params_roundtrip (p : SelectParams)
    (hmask : p.mask.length ≤ 31) (hptr : p.pointer < 2 ^ 32) :
    get_select_param_parse (select_param_response (set_select_param_encode p)) = .ok p := by
  obtain ⟨target, action, mem_bank, pointer, mask, truncate⟩ := p
  simp only [SelectParams.mask] at hmask
  simp only [SelectParams.pointer] at hptr
  have hbits := sel_byte_bits target.code (by cases target <;> decide)
    action.code (by cases action <;> decide) mem_bank.code (by cases mem_bank <;> decide)
  unfold get_select_param_parse select_param_response set_select_param_encode u32_to_be_bytes
  simp only [List.cons_append, List.nil_append, List.append_assoc,
    List.getD_cons_zero, List.getD_cons_succ, List.length_cons, List.length_append,
    List.length_singleton]
  have hmbytes : select_mask_len_bytes ((mask.length * 8) % 256) = mask.length := by
    unfold select_mask_len_bytes
    omega
  rw [hmbytes]
  rw [if_neg (by push_neg; refine ⟨by simp, rfl, rfl, rfl⟩)]
  rw [if_neg (by simp; omega)]
  simp only [Except.ok.injEq, SelectParams.mk.injEq]
  refine ⟨?_, ?_, ?_, ?_, ?_, ?_⟩
  · rw [hbits.1]
    cases target <;> rfl
  · rw [hbits.2.1]
    cases action <;> rfl
  · rw [hbits.2.2]
    cases mem_bank <;> rfl
  · unfold u32_from_be_bytes
    omega
  · simp only [List.drop_succ_cons, List.drop_zero]
    exact List.take_left' rfl
  · cases truncate <;> rfl

/-- Witness for C2 (amended) at a `SelectParams` with target `S2`, action
`Action5`, the `TID` bank, pointer `0x20`, a 2-byte mask and truncation on. -/
theorem select_params_roundtrip_witness :
    ((SelectParams.mk .s2 .action5 .tid 0x20 [0xDE, 0xAD] true).mask.length ≤ 31 ∧
     (SelectParams.mk .s2 .action5 .tid 0x20 [0xDE, 0xAD] true).pointer < 2 ^ 32) ∧
    get_select_param_parse (select_param_response (set_select_param_encode
        (SelectParams.mk .s2 .action5 .tid 0x20 [0xDE, 0xAD] true))) =
      .ok (SelectParams.mk .s2 .action5 .tid 0x20 [0xDE, 0xAD] true) :=
  ⟨⟨by decide, by decide⟩,
   select_params_roundtrip (SelectParams.mk .s2 .action5 .tid 0x20 [0xDE, 0xAD] true)
     (by decide) (by decide)⟩

/-- An I/O action performed against the transport
(`RfidTransport::clear_input` / `write` / `read`). -/
inductive IoEvent where
  | clearInput
  | write (bytes : List Nat)
  | read
deriving DecidableEq, Repr

/-- A single-transaction mock transport: outcome of `clear_input`, of
`write` and of the one 500 ms `read` performed by `UhfRfid::exec`
(`none` = transport error, `some bytes` = the bytes read). -/
structure MockTransport where
  clearOk : Bool
  writeOk : Bool
  readResult : Option (List Nat)
deriving DecidableEq, Repr

/-- `UhfRfid::exec` from `reader.rs`: clear pending input, write the
command frame, sleep 200 ms (pure model: elided), then read one response
with a 500 ms timeout.  The second component is the exact list of
transport I/O actions performed, in order. -/
def exec (t : MockTransport) (cmd : List Nat) :
    Except UhfError (List Nat) × List IoEvent :=
  if ¬t.clearOk then (.error .transport, [.clearInput])
  else if ¬t.writeOk then (.error .transport, [.clearInput, .write cmd])
  else
    match t.readResult with
    | none => (.error .transport, [.clearInput, .write cmd, .read])
    | some response => (.ok response, [.clearInput, .write cmd, .read])

/-- `UhfRfid::set_tx_power` from `reader.rs`: reject power below 18 dBm or
above 26 dBm before any I/O; otherwise send `SET_TX_POWER` with the 2-byte
big-endian field `power_dbm * 100` via `exec` and validate the notification
response (`≥ 7` bytes, header, notification type, command echo, zero
status). -/
def set_tx_power (t : MockTransport) (power_dbm : Nat) :
    Except UhfError Unit × List IoEvent :=
  if power_dbm < 18 then (.error .invalidParameter, [])
  else if 26 < power_dbm then (.error .invalidParameter, [])
  else
    match exec t (create_command SET_TX_POWER
        [(power_dbm * 100 % 65536) >>> 8 % 256, power_dbm * 100 % 256]) with
    | (.error e, evs) => (.error e, evs)
    | (.ok response, evs) =>
      if 7 ≤ response.length ∧ response.getD 0 0 = HEADER ∧
          response.getD 1 0 = RESP_TYPE_NOTIFICATION ∧
          response.getD 2 0 = SET_TX_POWER ∧ response.getD 5 0 = 0x00 then
        (.ok (), evs)
      else
        (.error .invalidResponse, evs)

/-- C7: for every transport and every power value outside 18-26 dBm,
`set_tx_power` returns `InvalidParameter` having performed no transport
I/O at all (its event trace is empty); for every in-range value the
transaction proceeds — the first action performed is `clear_input`. -/
theorem set_tx_power_range_check (t : MockTransport) (power_dbm : Nat) :
    ((power_dbm < 18 ∨ 26 < power_dbm) →
      set_tx_power t power_dbm = (.error .invalidParameter, [])) ∧
    (18 ≤ power_dbm → power_dbm ≤ 26 →
      (set_tx_power t power_dbm).2.head? = some .clearInput) := by
  constructor
  · intro hout
    unfold set_tx_power
    rcases hout with hlo | hhi
    · rw [if_pos hlo]
    · rw [if_neg (by omega), if_pos hhi]
  · intro h1 h2
    unfold set_tx_power
    rw [if_neg (by omega), if_neg (by omega)]
    unfold exec
    by_cases hc : t.clearOk
    · by_cases hw : t.writeOk
      · cases hr : t.readResult with
        | none => simp [hc, hw, hr]
        | some response =>
          simp only [hc, hw, hr, not_true, if_neg, if_false]
          split <;> rfl
      · simp [hc, hw]
    · simp [hc]

/-- Witness for C7: with a well-behaved mock transport, `set_tx_power 17`
and `set_tx_power 27` return `InvalidParameter` with an empty I/O trace,
while `set_tx_power 18` starts its transaction with `clear_input`. -/
theorem set_tx_power_range_check_witness :
    ((17 : Nat) < 18 ∨ 26 < 17) ∧
    set_tx_power (MockTransport.mk true true (some [])) 17 =
      (.error .invalidParameter, []) ∧
    set_tx_power (MockTransport.mk true true (some [])) 27 =
      (.error .invalidParameter, []) ∧
    (set_tx_power (MockTransport.mk true true (some [])) 18).2.head? =
      some .clearInput :=
  ⟨Or.inl (by decide),
   (set_tx_power_range_check (MockTransport.mk true true (some [])) 17).1
     (Or.inl (by decide)),
   (set_tx_power_range_check (MockTransport.mk true true (some [])) 27).1
     (Or.inr (by decide)),
   (set_tx_power_range_check (MockTransport.mk true true (some [])) 18).2
     (by decide) (by decide)⟩

/-- Response handling of `UhfRfid::nxp_eas_alarm` (`reader.rs`): for a
response of at least 7 bytes led by `HEADER`, a `TAG`-type response means
an EAS tag was detected (`Ok(true)`); a `NOTIFICATION`-type response
returns `Ok(response[5] == 0x00)`; any other type is `InvalidResponse`,
as is a short or headerless response. -/
def nxp_eas_alarm_parse (response : List Nat) : Except UhfError Bool :=
  if 7 ≤ response.length ∧ response.getD 0 0 = HEADER then
    if response.getD 1 0 = RESP_TYPE_TAG then .ok true
    else if response.getD 1 0 = RESP_TYPE_NOTIFICATION then
      .ok (response.getD 5 0 == 0x00)
    else .error .invalidResponse
  else .error .invalidResponse

/-- C10: for every response of length at least 7 whose first byte is
`HEADER` and whose type byte is `NOTIFICATION`, `nxp_eas_alarm` returns
`Ok(status == 0x00)` where `status` is the byte at offset 5 — so it reports
an EAS alarm exactly when the notification's status byte is zero, making a
zero-status notification indistinguishable from a detection. -/
theorem nxp_eas_alarm_notification_status (response : List Nat)
    (hlen : 7 ≤ response.length) (hhdr : response.getD 0 0 = HEADER)
    (htype : response.getD 1 0 = RESP_TYPE_NOTIFICATION) :
    nxp_eas_alarm_parse response = .ok (response.getD 5 0 == 0x00) := by
  unfold nxp_eas_alarm_parse
  rw [if_pos ⟨hlen, hhdr⟩, if_neg (by rw [htype]; decide), if_pos htype]

/-- Witness for C10 at the zero-status notification
`[0xBB, 0x01, 0xE4, 0x00, 0x01, 0x00, 0x7E]`, which reports `Ok(true)`. -/
theorem nxp_eas_alarm_notification_status_witness :
    (7 ≤ ([0xBB, 0x01, 0xE4, 0x00, 0x01, 0x00, 0x7E] : List Nat).length) ∧
    nxp_eas_alarm_parse [0xBB, 0x01, 0xE4, 0x00, 0x01, 0x00, 0x7E] = .ok true :=
  ⟨by decide,
   (nxp_eas_alarm_notification_status [0xBB, 0x01, 0xE4, 0x00, 0x01, 0x00, 0x7E]
     (by decide) (by decide) (by decide)).trans (by decide)⟩

/-- `rposition` of Rust (`buffer[..i].iter().rposition(|&b| b == v)`):
index of the last occurrence of `v` in `l`. -/
def rposition (l : List Nat) (v : Nat) : Option Nat :=
  match l.reverse.findIdx? (· == v) with
  | none => none
  | some j => some (l.length - 1 - j)

/-- The frame-extraction inner loop shared by `multiple_poll_with_callback`
and `poll_for_duration_with_callback` (`reader.rs`): repeatedly find the
first `END` terminator in the buffer, search backward from it for the
nearest preceding `HEADER`, emit the frame `buffer[start..=end]` (or `none`
when no header precedes the terminator — those bytes are unrecoverable),
and drain the buffer through the terminator.  Returns the emitted items in
stream order together with the leftover buffer.  Fuel-indexed for
termination; each step drains at least one byte, so `buf.length` fuel is
never exhausted. -/
def scan_frames_aux : Nat → List Nat → List (Option (List Nat)) × List Nat
  | 0, buf => ([], buf)
  | fuel + 1, buf =>
    match buf.findIdx? (· == END_BYTE) with
    | none => ([], buf)
    | some i =>
      let item :=
        match rposition (buf.take i) HEADER with
        | some start => some ((buf.drop start).take (i + 1 - start))
        | none => none
      let rest := scan_frames_aux fuel (buf.drop (i + 1))
      (item :: rest.1, rest.2)

/-- `scan_frames buf` runs the frame-extraction loop to completion. -/
def scan_frames (buf : List Nat) : List (Option (List Nat)) × List Nat :=
  scan_frames_aux buf.length buf

/-- The end-of-round notification signature checked by both polling loops:
`frame.len() >= 8 && frame[1] == NOTIFICATION && frame[2] == 0xFF &&
frame[5] == 0x15`. -/
def is_end_of_round (frame : List Nat) : Bool :=
  decide (8 ≤ frame.length) && (frame.getD 1 0 == RESP_TYPE_NOTIFICATION) &&
    (frame.getD 2 0 == 0xFF) && (frame.getD 5 0 == 0x15)

/-- `parse_tag` as the polling loops observe it.  By
`parse_tag_never_panics` the panic case is unreachable; it is mapped to an
(arbitrary) error so the loops can be stated over total functions. -/
def parse_tag_run (frame : List Nat) : Except UhfError (Option TagInfo) :=
  match parse_tag frame with
  | .ok v => v
  | .panic => .error .invalidResponse

/-- One loop iteration's read outcome: `data bytes` models
`transport.read = Ok(n)` with `n > 0` delivering `bytes`; `idle timedOut`
models `Ok(0)` or `Err(_)`, with `timedOut` recording whether the
`start.elapsed() > max_wait` check fires at that point (used only by the
round-bounded loop). -/
inductive ReadOutcome where
  | data (bytes : List Nat)
  | idle (timedOut : Bool)
deriving DecidableEq, Repr

/-- The Rust closure `|tag| tags.push(tag)` used by the aggregate APIs. -/
def push_cb : TagInfo → List TagInfo → List TagInfo :=
  fun tag tags => tags ++ [tag]

/-- Frame-item processing of `poll_for_duration_with_callback`: an
end-of-round frame only triggers a poll-command rewrite (no observable
effect on tags) and scanning continues; a parsed tag invokes the callback
and increments the count; `Ok(None)` and parse failures are skipped. -/
def pd_items {σ : Type} (cb : TagInfo → σ → σ) :
    List (Option (List Nat)) → Nat → σ → Nat × σ
  | [], n, s => (n, s)
  | none :: rest, n, s => pd_items cb rest n s
  | some frame :: rest, n, s =>
    if is_end_of_round frame then pd_items cb rest n s
    else
      match parse_tag_run frame with
      | .ok (some tag) => pd_items cb rest (n + 1) (cb tag s)
      | .ok none => pd_items cb rest n s
      | .error _ => pd_items cb rest n s

/-- Outer read loop of `poll_for_duration_with_callback`: each `data`
outcome appends to the buffer and processes every extracted frame; `idle`
outcomes just sleep; the loop ends when the duration budget (the read
schedule) is exhausted. -/
def pd_loop {σ : Type} (cb : TagInfo → σ → σ) :
    List ReadOutcome → List Nat → Nat → σ → Nat × σ
  | [], _, n, s => (n, s)
  | .data bytes :: rest, buffer, n, s =>
    pd_loop cb rest (scan_frames (buffer ++ bytes)).2
      (pd_items cb (scan_frames (buffer ++ bytes)).1 n s).1
      (pd_items cb (scan_frames (buffer ++ bytes)).1 n s).2
  | .idle _ :: rest, buffer, n, s => pd_loop cb rest buffer n s

/-- `UhfRfid::poll_for_duration_with_callback` (`reader.rs`): clear input,
write the continuous `MULTIPLE_POLL` command (either failing is a
`Transport` error), then run the read loop; returns the discovered-tag
count (paired here with the final callback state). -/
def poll_for_duration_with_callback {σ : Type} (cb : TagInfo → σ → σ) (s₀ : σ)
    (clearOk writeOk : Bool) (reads : List ReadOutcome) :
    Except UhfError (Nat × σ) :=
  if ¬clearOk then .error .transport
  else if ¬writeOk then .error .transport
  else .ok (pd_loop cb reads [] 0 s₀)

/-- `UhfRfid::poll_for_duration` (`reader.rs`): run the callback variant
with the push-to-vector closure over the same transport schedule and return
the accumulated tag vector. -/
def poll_for_duration (clearOk writeOk : Bool) (reads : List ReadOutcome) :
    Except UhfError (List TagInfo) :=
  match poll_for_duration_with_callback push_cb [] clearOk writeOk reads with
  | .error e => .error e
  | .ok (_, tags) => .ok tags

/-- Frame-item processing of `multiple_poll_with_callback`: an end-of-round
frame makes the whole poll return immediately with the current count
(`Sum.inl`); otherwise as for the duration-bounded loop. -/
def mp_items {σ : Type} (cb : TagInfo → σ → σ) :
    List (Option (List Nat)) → Nat → σ → (Nat × σ) ⊕ (Nat × σ)
  | [], n, s => .inr (n, s)
  | none :: rest, n, s => mp_items cb rest n s
  | some frame :: rest, n, s =>
    if is_end_of_round frame then .inl (n, s)
    else
      match parse_tag_run frame with
      | .ok (some tag) => mp_items cb rest (n + 1) (cb tag s)
      | .ok none => mp_items cb rest n s
      | .error _ => mp_items cb rest n s

/-- Outer read loop of `multiple_poll_with_callback`: `data` outcomes are
processed (an end-of-round frame returns), an `idle` outcome past the
3-second `max_wait` breaks, any other `idle` outcome sleeps and retries. -/
def mp_loop {σ : Type} (cb : TagInfo → σ → σ) :
    List ReadOutcome → List Nat → Nat → σ → Nat × σ
  | [], _, n, s => (n, s)
  | .data bytes :: rest, buffer, n, s =>
    match mp_items cb (scan_frames (buffer ++ bytes)).1 n s with
    | .inl done => done
    | .inr cont => mp_loop cb rest (scan_frames (buffer ++ bytes)).2 cont.1 cont.2
  | .idle true :: _, _, n, s => (n, s)
  | .idle false :: rest, buffer, n, s => mp_loop cb rest buffer n s

/-- `UhfRfid::multiple_poll_with_callback` (`reader.rs`): zero rounds is an
`InvalidParameter` error; clear input and write the `MULTIPLE_POLL` command
(either failing is a `Transport` error); then run the read loop. -/
def multiple_poll_with_callback {σ : Type} (cb : TagInfo → σ → σ) (s₀ : σ)
    (rounds : Nat) (clearOk writeOk : Bool) (reads : List ReadOutcome) :
    Except UhfError (Nat × σ) :=
  if rounds = 0 then .error .invalidParameter
  else if ¬clearOk then .error .transport
  else if ¬writeOk then .error .transport
  else .ok (mp_loop cb reads [] 0 s₀)

/-- `UhfRfid::multiple_poll` (`reader.rs`): run the callback variant with
the push-to-vector closure and return the accumulated tag vector. -/
def multiple_poll (rounds : Nat) (clearOk writeOk : Bool)
    (reads : List ReadOutcome) : Except UhfError (List TagInfo) :=
  match multiple_poll_with_callback push_cb [] rounds clearOk writeOk reads with
  | .error e => .error e
  | .ok (_, tags) => .ok tags

/-- Folding a callback over a delivered tag sequence. -/
def deliver {σ : Type} (cb : TagInfo → σ → σ) (s : σ) (tags : List TagInfo) : σ :=
  tags.foldl (fun a tag => cb tag a) s

lemma deliver_cons {σ : Type} (cb : TagInfo → σ → σ) (s : σ) (t : TagInfo)
    (ts : List TagInfo) : deliver cb s (t :: ts) = deliver cb (cb t s) ts := rfl

lemma deliver_append {σ : Type} (cb : TagInfo → σ → σ) (s : σ)
    (l₁ l₂ : List TagInfo) :
    deliver cb s (l₁ ++ l₂) = deliver cb (deliver cb s l₁) l₂ :=
  List.foldl_append _ _ _ _

lemma deliver_push (tags : List TagInfo) :
    ∀ init : List TagInfo, deliver push_cb init tags = init ++ tags := by
  induction tags with
  | nil => intro init; simp [deliver]
  | cons t ts ih =>
    intro init
    rw [deliver_cons, ih]
    simp [push_cb]

lemma pd_items_spec (items : List (Option (List Nat))) :
    ∀ {σ : Type} (cb : TagInfo → σ → σ) (n : Nat) (s : σ),
      pd_items cb items n s =
        ((pd_items push_cb items n []).1,
         deliver cb s (pd_items push_cb items n []).2) := by
  induction items with
  | nil => intro σ cb n s; simp [pd_items, deliver]
  | cons item rest ih =>
    intro σ cb n s
    cases item with
    | none => simp only [pd_items]; exact ih cb n s
    | some frame =>
      by_cases he : is_end_of_round frame
      · simp only [pd_items, he, if_true]
        exact ih cb n s
      · cases hp : parse_tag_run frame with
        | error e =>
          simp only [pd_items, he, Bool.false_eq_true, if_false, hp]
          exact ih cb n s
        | ok v =>
          cases v with
          | none =>
            simp only [pd_items, he, Bool.false_eq_true, if_false, hp]
            exact ih cb n s
          | some tag =>
            simp only [pd_items, he, Bool.false_eq_true, if_false, hp]
            rw [ih cb (n + 1) (cb tag s), ih push_cb (n + 1) (push_cb tag [])]
            have htr : deliver push_cb (push_cb tag [])
                (pd_items push_cb rest (n + 1) []).2 =
                tag :: (pd_items push_cb rest (n + 1) []).2 := by
              rw [deliver_push]
              simp [push_cb]
            rw [htr, deliver_cons]

lemma pd_items_count (items : List (Option (List Nat))) :
    ∀ (n : Nat) (s : List TagInfo),
      (pd_items push_cb items n s).1 + s.length =
        n + (pd_items push_cb items n s).2.length := by
  induction items with
  | nil => intro n s; simp [pd_items]
  | cons item rest ih =>
    intro n s
    cases item with
    | none => simp only [pd_items]; exact ih n s
    | some frame =>
      by_cases he : is_end_of_round frame
      · simp only [pd_items, he, if_true]; exact ih n s
      · cases hp : parse_tag_run frame with
        | error e => simp only [pd_items, he, Bool.false_eq_true, if_false, hp]; exact ih n s
        | ok v =>
          cases v with
          | none => simp only [pd_items, he, Bool.false_eq_true, if_false, hp]; exact ih n s
          | some tag =>
            simp only [pd_items, he, Bool.false_eq_true, if_false, hp, push_cb]
            have := ih (n + 1) (s ++ [tag])
            simp only [List.length_append, List.length_singleton] at this
            omega

lemma pd_loop_spec (reads : List ReadOutcome) :
    ∀ {σ : Type} (cb : TagInfo → σ → σ) (buffer : List Nat) (n : Nat) (s : σ),
      pd_loop cb reads buffer n s =
        ((pd_loop push_cb reads buffer n []).1,
         deliver cb s (pd_loop push_cb reads buffer n []).2) := by
  induction reads with
  | nil => intro σ cb buffer n s; simp [pd_loop, deliver]
  | cons outcome rest ih =>
    intro σ cb buffer n s
    cases outcome with
    | idle timedOut =>
      simp only [pd_loop]
      exact ih cb buffer n s
    | data bytes =>
      simp only [pd_loop]
      rw [pd_items_spec _ cb n s]
      rw [ih cb _ _ _, ih push_cb _ _ (pd_items push_cb (scan_frames (buffer ++ bytes)).1 n []).2]
      rw [deliver_push, deliver_append]

lemma pd_loop_count (reads : List ReadOutcome) :
    ∀ (buffer : List Nat) (n : Nat) (s : List TagInfo),
      (pd_loop push_cb reads buffer n s).1 + s.length =
        n + (pd_loop push_cb reads buffer n s).2.length := by
  induction reads with
  | nil => intro buffer n s; simp [pd_loop]
  | cons outcome rest ih =>
    intro buffer n s
    cases outcome with
    | idle timedOut => simp only [pd_loop]; exact ih buffer n s
    | data bytes =>
      simp only [pd_loop]
      have h1 := pd_items_count (scan_frames (buffer ++ bytes)).1 n s
      have h2 := ih (scan_frames (buffer ++ bytes)).2
        (pd_items push_cb (scan_frames (buffer ++ bytes)).1 n s).1
        (pd_items push_cb (scan_frames (buffer ++ bytes)).1 n s).2
      omega

lemma mp_items_spec (items : List (Option (List Nat))) :
    ∀ {σ : Type} (cb : TagInfo → σ → σ) (n : Nat) (s : σ),
      mp_items cb items n s =
        match mp_items push_cb items n [] with
        | .inl done => .inl (done.1, deliver cb s done.2)
        | .inr cont => .inr (cont.1, deliver cb s cont.2) := by
  induction items with
  | nil => intro σ cb n s; simp [mp_items, deliver]
  | cons item rest ih =>
    intro σ cb n s
    cases item with
    | none => simp only [mp_items]; exact ih cb n s
    | some frame =>
      by_cases he : is_end_of_round frame
      · simp [mp_items, he, deliver]
      · cases hp : parse_tag_run frame with
        | error e =>
          simp only [mp_items, he, Bool.false_eq_true, if_false, hp]
          exact ih cb n s
        | ok v =>
          cases v with
          | none =>
            simp only [mp_items, he, Bool.false_eq_true, if_false, hp]
            exact ih cb n s
          | some tag =>
            simp only [mp_items, he, Bool.false_eq_true, if_false, hp]
            rw [ih cb (n + 1) (cb tag s), ih push_cb (n + 1) (push_cb tag [])]
            cases hres : mp_items push_cb rest (n + 1) [] with
            | inl done =>
              dsimp only
              rw [deliver_push]
              simp [push_cb, deliver_cons]
            | inr cont =>
              dsimp only
              rw [deliver_push]
              simp [push_cb, deliver_cons]

lemma mp_items_count (items : List (Option (List Nat))) :
    ∀ (n : Nat) (s : List TagInfo),
      (match mp_items push_cb items n s with
       | .inl done => done.1 + s.length = n + done.2.length
       | .inr cont => cont.1 + s.length = n + cont.2.length) := by
  induction items with
  | nil => intro n s; simp [mp_items]
  | cons item rest ih =>
    intro n s
    cases item with
    | none => simp only [mp_items]; exact ih n s
    | some frame =>
      by_cases he : is_end_of_round frame
      · simp only [mp_items, he, if_true]
      · cases hp : parse_tag_run frame with
        | error e =>
          simp only [mp_items, he, Bool.false_eq_true, if_false, hp]
          exact ih n s
        | ok v =>
          cases v with
          | none =>
            simp only [mp_items, he, Bool.false_eq_true, if_false, hp]
            exact ih n s
          | some tag =>
            simp only [mp_items, he, Bool.false_eq_true, if_false, hp, push_cb]
            have := ih (n + 1) (s ++ [tag])
            cases hres : mp_items push_cb rest (n + 1) (s ++ [tag]) with
            | inl done =>
              rw [hres] at this
              simp only [List.length_append, List.length_singleton] at this
              omega
            | inr cont =>
              rw [hres] at this
              simp only [List.length_append, List.length_singleton] at this
              omega

lemma mp_loop_spec (reads : List ReadOutcome) :
    ∀ {σ : Type} (cb : TagInfo → σ → σ) (buffer : List Nat) (n : Nat) (s : σ),
      mp_loop cb reads buffer n s =
        ((mp_loop push_cb reads buffer n []).1,
         deliver cb s (mp_loop push_cb reads buffer n []).2) := by
  induction reads with
  | nil => intro σ cb buffer n s; simp [mp_loop, deliver]
  | cons outcome rest ih =>
    intro σ cb buffer n s
    cases outcome with
    | idle timedOut =>
      cases timedOut with
      | true => simp [mp_loop, deliver]
      | false => simp only [mp_loop]; exact ih cb buffer n s
    | data bytes =>
      simp only [mp_loop]
      rw [mp_items_spec _ cb n s]
      cases hres : mp_items push_cb (scan_frames (buffer ++ bytes)).1 n [] with
      | inl done => simp
      | inr cont =>
        simp only []
        rw [ih cb _ _ _, ih push_cb _ cont.1 cont.2]
        have hc : ∀ tr : List TagInfo,
            deliver cb s (deliver push_cb cont.2 tr) =
              deliver cb (deliver cb s cont.2) tr := by
          intro tr
          rw [deliver_push, deliver_append]
        rw [hc]

lemma mp_loop_count (reads : List ReadOutcome) :
    ∀ (buffer : List Nat) (n : Nat) (s : List TagInfo),
      (mp_loop push_cb reads buffer n s).1 + s.length =
        n + (mp_loop push_cb reads buffer n s).2.length := by
  induction reads with
  | nil => intro buffer n s; simp [mp_loop]
  | cons outcome rest ih =>
    intro buffer n s
    cases outcome with
    | idle timedOut =>
      cases timedOut with
      | true => simp [mp_loop]
      | false => simp only [mp_loop]; exact ih buffer n s
    | data bytes =>
      simp only [mp_loop]
      have hitems := mp_items_count (scan_frames (buffer ++ bytes)).1 n s
      cases hres : mp_items push_cb (scan_frames (buffer ++ bytes)).1 n s with
      | inl done =>
        rw [hres] at hitems
        simpa using hitems
      | inr cont =>
        rw [hres] at hitems
        have := ih (scan_frames (buffer ++ bytes)).2 cont.1 cont.2
        dsimp only
        omega

/-- C9: the aggregate collection APIs are thin accumulators over the
callback variants.  For every callback `cb`, initial state `s₀`, transport
behaviour (clear/write outcomes and read schedule) and round count:
`poll_for_duration_with_callback` produces the same error as
`poll_for_duration` on the same transport, or succeeds with exactly the
tag sequence `poll_for_duration` returns — its count is that sequence's
length and its final state is the fold of `cb` over that sequence in
stream order (so `cb` is invoked once per tag, in the same order and with
the same count as the aggregate result); likewise
`multiple_poll_with_callback` relative to `multiple_poll`. -/
theorem poll_aggregates_refine_callbacks {σ : Type} (cb : TagInfo → σ → σ)
    (s₀ : σ) (clearOk writeOk : Bool) (reads : List ReadOutcome) (rounds : Nat) :
    (poll_for_duration_with_callback cb s₀ clearOk writeOk reads =
      match poll_for_duration clearOk writeOk reads with
      | .error e => .error e
      | .ok tags => .ok (tags.length, deliver cb s₀ tags)) ∧
    (multiple_poll_with_callback cb s₀ rounds clearOk writeOk reads =
      match multiple_poll rounds clearOk writeOk reads with
      | .error e => .error e
      | .ok tags => .ok (tags.length, deliver cb s₀ tags)) := by
  constructor
  · unfold poll_for_duration poll_for_duration_with_callback
    by_cases hc : clearOk
    · by_cases hw : writeOk
      · simp only [hc, hw, not_true, if_neg, if_false]
        have hspec := pd_loop_spec reads cb [] 0 s₀
        have hcount := pd_loop_count reads [] 0 []
        simp only [List.length_nil, Nat.add_zero, Nat.zero_add] at hcount
        rw [hspec, hcount]
      · simp [hc, hw]
    · simp [hc]
  · unfold multiple_poll multiple_poll_with_callback
    by_cases hr : rounds = 0
    · simp [hr]
    · by_cases hc : clearOk
      · by_cases hw : writeOk
        · simp only [hr, hc, hw, not_true, if_neg, if_false]
          have hspec := mp_loop_spec reads cb [] 0 s₀
          have hcount := mp_loop_count reads [] 0 []
          simp only [List.length_nil, Nat.add_zero, Nat.zero_add] at hcount
          rw [hspec, hcount]
        · simp [hr, hc, hw]
      · simp [hr, hc]
